import Mathlib

/-!
Shallow embedding of the exception-submitter web service
(src/exceptionservice/server.py) and proofs about its deduplication,
sanitisation and rendering pipeline.

Conventions of the embedding:
* Python strings are Lean `String`; Python slicing / indexing operates on
  code points, which matches `String.data : List Char`.
* Fallible Python code is `Except PyError _`; an uncaught Python exception
  is an `Except.error`.
* Network calls (Jira search, sprint lookup, attachment upload) and
  `difflib.SequenceMatcher.ratio` are impure or numerically involved
  collaborators; they enter as explicit parameters.  The cheap bound
  `real_quick_ratio` is embedded exactly (as a rational).
* Regular expressions of the source are embedded as the deterministic
  matching functions they denote on the character classes involved
  (ASCII word / space / digit classes, which is what the rendered stack
  traces and environment strings consist of).
-/

/-- Kinds of Python exceptions that the embedded code can raise.
`internalError` is the InternalError class defined by the service itself;
`indexError` is an out-of-range list index; `connectionError` stands for
the exceptions that the HTTP client raises on a failed request. -/
inductive PyError where
  | indexError : PyError
  | keyError : PyError
  | connectionError : PyError
  | internalError : String → PyError
deriving DecidableEq

/-- The handler in receive_exception catches only InternalError (turning it
into a controlled 500 response); every other exception escapes it. -/
def receive_exception_handles : PyError → Bool
  | .internalError _ => true
  | _ => false

/-- One element of a cause frame stack line list
(className/methodName/fileName/lineNumber/nativeMethod of the report JSON). -/
structure StackLine where
  className : String
  methodName : String
  fileName : String
  lineNumber : Int
  nativeMethod : Bool
deriving DecidableEq

/-- One entry of the report field named stacktrace: a cause frame with its
message and its own stack lines. -/
structure CauseFrame where
  message : String
  stacktrace : List StackLine
deriving DecidableEq

/-- A Jira fix version; only the name field is consumed. -/
structure FixVersion where
  name : String
deriving DecidableEq

/-- The Jira issue fields consumed by the duplicate resolver.  In the JSON
they live under issue.key and issue.fields.{status.name, environment,
fixVersions, description}; the environment field may be JSON null. -/
structure Issue where
  key : String
  statusName : String
  environment : Option String
  fixVersions : List FixVersion
  description : String
deriving DecidableEq

/-- Result tuple of determine_if_duplicate: either
(True, key, status, environment, latest fix version name) or (False, ''). -/
inductive Verdict where
  | dup : String → String → Option String → String → Verdict
  | noDup : Verdict
deriving DecidableEq

/-- Python slice s[:n] (by code points). -/
def strTake (s : String) (n : Nat) : String := ⟨s.data.take n⟩

/-- get_summary_from_message: stacks[len(stacks) - 1].message.  On an empty
list Python evaluates stacks[-1], which raises IndexError. -/
def get_summary_from_message (stackList : List CauseFrame) : Except PyError String :=
  match stackList.getLast? with
  | some frame => .ok frame.message
  | none => .error .indexError

/-- Sequential concatenation, as produced by the StringIO write loop. -/
def concatAll : List String → String
  | [] => ""
  | s :: rest => s ++ concatAll rest

/-- One output.write per non-native stack line:
"\tat {className}.{methodName}({fileName}:{lineNumber})\n". -/
def render_stack_line (l : StackLine) : String :=
  "\tat " ++ l.className ++ "." ++ l.methodName ++ "(" ++ l.fileName ++ ":"
    ++ toString l.lineNumber ++ ")\n"

/-- Rendering of one cause frame: the header "Caused by: {message}\n"
followed by the non-native stack lines (if not line.nativeMethod). -/
def render_frame (f : CauseFrame) : String :=
  "Caused by: " ++ f.message ++ "\n"
    ++ concatAll ((f.stacktrace.filter (fun l => !l.nativeMethod)).map render_stack_line)

/-- get_stacktrace_from_message: frames rendered in original order into one
string. -/
def get_stacktrace_from_message (frames : List CauseFrame) : String :=
  concatAll (frames.map render_frame)

/-- Keeps only the non-native stack lines of a frame. -/
def dropNativeLines (f : CauseFrame) : CauseFrame :=
  ⟨f.message, f.stacktrace.filter (fun l => !l.nativeMethod)⟩

/-- The ASCII part of the Python regex class backslash-s, which is also the
set str.strip removes on the strings at hand. -/
def isPySpace (c : Char) : Bool :=
  c == ' ' || c == '\t' || c == '\n' || c == '\r' || c == '\x0b' || c == '\x0c'

/-- The ASCII part of the Python regex class backslash-w. -/
def isWordChar (c : Char) : Bool := c.isAlphanum || c == '_'

/-- Line boundary characters recognised by str.splitlines. -/
def isLineBreak (c : Char) : Bool :=
  c == '\n' || c == '\r' || c == '\x0b' || c == '\x0c' || c == '\x1c'
    || c == '\x1d' || c == '\x1e' || c == '\x85' || c == '\u2028' || c == '\u2029'

/-- Worker for splitlines; acc holds the current line reversed. -/
def splitlinesAux : List Char → List Char → List (List Char)
  | [], acc => if acc.isEmpty then [] else [acc.reverse]
  | '\r' :: '\n' :: rest, acc => acc.reverse :: splitlinesAux rest []
  | c :: rest, acc =>
    if isLineBreak c then acc.reverse :: splitlinesAux rest []
    else splitlinesAux rest (c :: acc)

/-- Python str.splitlines (without keepends): no entry for a trailing
terminator, and the empty string yields the empty list. -/
def splitlines (s : String) : List String :=
  (splitlinesAux s.data []).map (fun l => ⟨l⟩)

/-- Case-insensitive literal prefix match; the pattern is given lowercase.
Returns the rest of the input after the pattern. -/
def stripPrefixCI : List Char → List Char → Option (List Char)
  | [], cs => some cs
  | _ :: _, [] => none
  | p :: ps, c :: cs => if c.toLower == p then stripPrefixCI ps cs else none

/-- REGEX_CAUSED_BY.match(line): does the line start with
backslash-W* "caused" backslash-W+ "by" (case-insensitively)?  Because "c"
and "b" are word characters, the greedy gaps are exactly the maximal runs
of non-word characters. -/
def matchCausedBy (line : String) : Bool :=
  match stripPrefixCI "caused".data (line.data.dropWhile (fun c => !isWordChar c)) with
  | none => false
  | some rest =>
    match rest with
    | [] => false
    | c :: _ =>
      if isWordChar c then false
      else (stripPrefixCI "by".data (rest.dropWhile (fun c => !isWordChar c))).isSome

/-- The for-loop of first_line_caused_by_from_printed_stacktrace: the index
of the last line matching REGEX_CAUSED_BY, or -1. -/
def lastCausedByIdx (lines : List String) : Int :=
  (List.range lines.length).foldl
    (fun acc i => if matchCausedBy (lines.getD i "") then (i : Int) else acc) (-1)

/-- Python list indexing with a non-negative index: IndexError out of range. -/
def pyIndex (l : List String) (i : Nat) : Except PyError String :=
  match l.drop i with
  | [] => .error .indexError
  | x :: _ => .ok x

/-- first_line_caused_by_from_printed_stacktrace: take the line following
the last caused-by line (lines[loc + 1], IndexError when out of range) and
keep its part before the first colon (str.partition). -/
def first_line_caused_by_from_printed_stacktrace (printed : String) : Except PyError String :=
  let lines := splitlines printed
  let loc := lastCausedByIdx lines
  match pyIndex lines (loc + 1).toNat with
  | .error e => .error e
  | .ok line => .ok ⟨line.data.takeWhile (fun c => !(c == ':'))⟩

/-- matches_exception_throw_location: both throw locations agree. -/
def matches_exception_throw_location (new_st issue_st : String) : Except PyError Bool :=
  match first_line_caused_by_from_printed_stacktrace new_st with
  | .error e => .error e
  | .ok a =>
    match first_line_caused_by_from_printed_stacktrace issue_st with
    | .error e => .error e
    | .ok b => .ok (a == b)

/-- Exact literal prefix match returning the remainder. -/
def stripPrefixExact : List Char → List Char → Option (List Char)
  | [], cs => some cs
  | _ :: _, [] => none
  | p :: ps, c :: cs => if c == p then stripPrefixExact ps cs else none

/-- Python str.split(sep) for a non-empty separator, written with explicit
fuel so that it is structurally recursive; fuel at least the input length
is always enough because sep is non-empty. -/
def splitOnFuel (sep : List Char) : Nat → List Char → List Char → List (List Char)
  | _, [], acc => [acc.reverse]
  | 0, cs, acc => [acc.reverse ++ cs]
  | fuel + 1, c :: cs, acc =>
    match stripPrefixExact sep (c :: cs) with
    | some rest => acc.reverse :: splitOnFuel sep fuel rest []
    | none => splitOnFuel sep fuel cs (c :: acc)

/-- Python str.split with a non-empty separator string. -/
def pySplit (s : String) (sep : String) : List String :=
  (splitOnFuel sep.data (s.data.length + 1) s.data []).map (fun l => ⟨l⟩)

/-- get_stacktrace_from_issue: split the description on the literal token
and, when at least three blocks result, return the second block; otherwise
the empty string. -/
def get_stacktrace_from_issue (issue : Issue) : String :=
  let blocks := pySplit issue.description "{noformat}"
  if 3 ≤ blocks.length then blocks.getD 1 "" else ""

/-- difflib SequenceMatcher.real_quick_ratio, exactly:
2 * min(len(a), len(b)) / (len(a) + len(b)), and 1 when both are empty. -/
def real_quick_ratioQ (a b : String) : Rat :=
  if a.length + b.length = 0 then 1
  else (2 * (min a.length b.length) : Nat) / ((a.length + b.length : Nat) : Rat)

/-- match_ratio of the determine_if_duplicate loop: s.ratio() when
s.real_quick_ratio() > 0.6, else 0.  `sim` abstracts
SequenceMatcher.ratio of the pair (with whitespace as junk). -/
def gated_ratio (sim : String → String → Rat) (a b : String) : Rat :=
  if (6 : Rat) / 10 < real_quick_ratioQ a b then sim a b else 0

/-- The body of the determine_if_duplicate loop for one candidate issue:
trim the new trace to the stored length, compute the gated match_ratio,
and declare a match when the stored trace is non-empty, the ratio exceeds
0.7 and the throw locations agree. -/
def issue_match (sim : String → String → Rat) (new_stacktrace : String) (issue : Issue) :
    Except PyError Bool :=
  let issue_stacktrace := get_stacktrace_from_issue issue
  let new_trimmed := strTake new_stacktrace issue_stacktrace.length
  if 0 < issue_stacktrace.length ∧ (7 : Rat) / 10 < gated_ratio sim new_trimmed issue_stacktrace then
    matches_exception_throw_location new_trimmed issue_stacktrace
  else
    .ok false

/-- get_latest_fix_version without the final indexing: the first element
carrying the lexicographically greatest name (sorted(..., reverse=True) is
stable, so ties keep original order and [0] is the earliest maximum). -/
def max_fix_version : List FixVersion → Option FixVersion
  | [] => none
  | fv :: rest =>
    match max_fix_version rest with
    | none => some fv
    | some m => if fv.name < m.name then some m else some fv

/-- get_latest_fix_version: sorted(fix_versions, key=name, reverse=True)[0];
the indexing raises IndexError on an empty list. -/
def get_latest_fix_version (fix_versions : List FixVersion) : Except PyError FixVersion :=
  match max_fix_version fix_versions with
  | none => .error .indexError
  | some fv => .ok fv

/-- The issue loop of determine_if_duplicate over the fetched issue list. -/
def duplicate_scan (sim : String → String → Rat) (new_stacktrace : String) :
    List Issue → Except PyError Verdict
  | [] => .ok .noDup
  | issue :: rest =>
    match issue_match sim new_stacktrace issue with
    | .error e => .error e
    | .ok true =>
      match get_latest_fix_version issue.fixVersions with
      | .error e => .error e
      | .ok fv => .ok (.dup issue.key issue.statusName issue.environment fv.name)
    | .ok false => duplicate_scan sim new_stacktrace rest

/-- determine_if_duplicate: extract the summary (its possible IndexError
propagates), render the new stack trace, and scan the issue list that the
Jira search returned for that summary (the search being an external call,
the list is a parameter). -/
def determine_if_duplicate (sim : String → String → Rat) (frames : List CauseFrame)
    (issue_list : List Issue) : Except PyError Verdict :=
  match get_summary_from_message frames with
  | .error e => .error e
  | .ok _ => duplicate_scan sim (get_stacktrace_from_message frames) issue_list

/-- is_issue_closed: the status name equals closed or resolved after
lowercasing. -/
def is_issue_closed (status : String) : Bool :=
  status.toLower == "closed" || status.toLower == "resolved"

/-- should_reopen_if_closed: the current sprint name is fetched fresh per
call (external), so it is a parameter; reopen when the issue is closed and
was not fixed in the current sprint. -/
def should_reopen_if_closed (current_sprint : String) (issue_is_closed : Bool)
    (fixed_in_sprint : String) : Bool :=
  issue_is_closed && !(current_sprint == fixed_in_sprint)

/-- ASCII digits, the class backslash-d of REGEX_COUNT. -/
def isPyDigit (c : Char) : Bool := c.isDigit

/-- Python int() on a run of ASCII digits. -/
def digitsToNat (l : List Char) : Nat :=
  l.foldl (fun acc c => acc * 10 + (c.toNat - 48)) 0

/-- Attempt of the tail "count:" backslash-s+ (backslash-d+) of REGEX_COUNT
at the start of cs: the literal case-insensitively, at least one whitespace
character, then the maximal run of digits (the greedy capture). -/
def matchCountAt (cs : List Char) : Option Nat :=
  match stripPrefixCI "count:".data cs with
  | none => none
  | some rest =>
    match rest with
    | [] => none
    | c :: _ =>
      if isPySpace c then
        let ds := (rest.dropWhile isPySpace).takeWhile isPyDigit
        if ds.isEmpty then none else some (digitsToNat ds)
      else none

/-- REGEX_COUNT.match(s) with its captured group as a number: the greedy
dot-star cannot cross a newline, so the literal must start within the first
line, and greediness selects the last position where the tail matches. -/
def parseOccurrence (s : String) : Option Nat :=
  let cs := s.data
  let limit := (cs.takeWhile (fun c => !(c == '\n'))).length
  ((List.range (limit + 1)).reverse).findSome? (fun i => matchCountAt (cs.drop i))

/-- calculate_issue_occurrence_count: parse the previous count out of the
existing environment text (None and empty skip the regex), increment it or
default to 1, and render the new environment string.  datetime.now() is
impure, so the timestamp is a parameter. -/
def calculate_issue_occurrence_count (existing_count : Option String) (now : String) : String :=
  let count : Nat :=
    match existing_count with
    | none => 1
    | some e =>
      if 0 < e.length then
        match parseOccurrence e with
        | some n => n + 1
        | none => 1
      else 1
  "Count: " ++ toString count ++ "\nLast: " ++ now

/-- The JQL character blacklist of the source, as a list of characters. -/
def BLACKLISTED_CHARACTERS : List Char := "\x27\"+-,?|*/%^$#@[]()&".data

/-- filter_out_blacklisted_characters: keep exactly the characters outside
the blacklist (the source accumulates them one by one). -/
def filter_out_blacklisted_characters (s : String) : String :=
  ⟨s.data.filter (fun c => !(BLACKLISTED_CHARACTERS.contains c))⟩

/-- State machine of re.sub(backslash-s+, " ", input): prev records whether
the previous character was whitespace, so each maximal whitespace run
becomes one space. -/
def collapse_ws (prev : Bool) : List Char → List Char
  | [] => []
  | c :: cs =>
    if isPySpace c then
      if prev then collapse_ws true cs else ' ' :: collapse_ws true cs
    else c :: collapse_ws false cs

/-- Removes the trailing whitespace run. -/
def dropTrailingWS : List Char → List Char
  | [] => []
  | c :: cs =>
    match dropTrailingWS cs with
    | [] => if isPySpace c then [] else [c]
    | x :: xs => c :: x :: xs

/-- Python str.strip(): leading and trailing whitespace removed. -/
def pyStrip (l : List Char) : List Char := dropTrailingWS (l.dropWhile isPySpace)

/-- trim_whitespace: re.sub(backslash-s+, " ", input).strip(). -/
def trim_whitespace (s : String) : String := ⟨pyStrip (collapse_ws false s.data)⟩

/-- Python slice s[:m] for an Int stop value: negative stops count from the
end (clamped at zero). -/
def pySliceStop (s : String) (m : Int) : String :=
  if 0 ≤ m then ⟨s.data.take m.toNat⟩
  else ⟨s.data.take ((s.length : Int) + m).toNat⟩

/-- trim_length: input[:max_length] if len(input) > max_length else input. -/
def trim_length (input : String) (max_length : Int) : String :=
  if (input.length : Int) > max_length then pySliceStop input max_length else input

/-- Worker for str.find: index of the first occurrence of c. -/
def pyFindAux (c : Char) : List Char → Option Nat
  | [] => none
  | x :: xs => if x == c then some 0 else (pyFindAux c xs).map (fun n => n + 1)

/-- Python str.find(c, start): first index at or after start, or -1. -/
def pyFind (s : String) (c : Char) (start : Nat) : Int :=
  match pyFindAux c (s.data.drop start) with
  | some i => ((i + start : Nat) : Int)
  | none => -1

/-- MAX_SUMMARY_LENGTH of the source. -/
def MAX_SUMMARY_LENGTH : Nat := 255

/-- The final step of sanitize_jql_summary: when trimming for a query and
the text holds at least two colons, cut just before the second colon
(sanitized[:sanitized.find(":", sanitized.find(":") + 1)]). -/
def second_colon_trim (trim_for_query : Bool) (sanitized : String) : String :=
  if trim_for_query ∧ 2 ≤ sanitized.data.count ':' then
    pySliceStop sanitized (pyFind sanitized ':' (pyFind sanitized ':' 0 + 1).toNat)
  else sanitized

/-- sanitize_jql_summary: blacklist removal, whitespace collapse and strip,
cap to MAX_SUMMARY_LENGTH - len(JIRA_ISSUE_TITLE) - 2, then the optional
second-colon cut.  JIRA_ISSUE_TITLE comes from the configuration module
(not part of the handled sources), so the title is a parameter. -/
def sanitize_jql_summary (title : String) (raw : String) (trim_for_query : Bool) : String :=
  second_colon_trim trim_for_query
    (trim_length (trim_whitespace (filter_out_blacklisted_characters raw))
      ((MAX_SUMMARY_LENGTH : Int) - (title.length : Int) - 2))

/-- add_attachment wraps its whole body (stream construction and HTTP POST)
in try/except InternalError.  The body is an external call, so its outcome
is a parameter; only an InternalError outcome is caught (and logged), every
other exception propagates.  Note that nothing inside the body ever raises
InternalError. -/
def add_attachment (body_result : Except PyError Unit) : Except PyError Unit :=
  match body_result with
  | .error (.internalError _) => .ok ()
  | r => r

/-- update_issue_with_attachments: the successive add_attachment calls for
the stack trace, the log archive and the screenshots, each abstracted by
the outcome of its body; the first propagating exception aborts the rest. -/
def update_issue_with_attachments (att_results : List (Except PyError Unit)) :
    Except PyError Unit :=
  match att_results with
  | [] => .ok ()
  | r :: rest =>
    match add_attachment r with
    | .error e => .error e
    | .ok _ => update_issue_with_attachments rest

/-- Verification-side predicate: every whitespace character of the list is
a plain space and is not followed by another whitespace character. -/
def okPair (c : Char) (l : List Char) : Bool :=
  !(isPySpace c) || (c == ' ' && !(match l with | [] => false | d :: _ => isPySpace d))

/-- Verification-side predicate over whole lists (see okPair). -/
def noDoubleSpace : List Char → Bool
  | [] => true
  | c :: cs => okPair c cs && noDoubleSpace cs

/-- Verification-side: does the list start with whitespace? -/
def headSpace : List Char → Bool
  | [] => false
  | c :: _ => isPySpace c

/-- Verification-side: does the list end with whitespace? -/
def lastSpace : List Char → Bool
  | [] => false
  | [c] => isPySpace c
  | _ :: c :: cs => lastSpace (c :: cs)

/-- A ratio collaborator declaring everything maximally similar, used to
drive the matcher to concrete verdicts in example runs. -/
def simOne : String → String → Rat := fun _ _ => 1

/-- A rendered incoming stack trace used in example runs. -/
def newTraceC1 : String := "Caused by: X\n\tat a.b(c:1)\n"

/-- A candidate issue storing the same stack trace in its description. -/
def issueC1 : Issue :=
  ⟨"PRJ-1", "Open", some "env", [⟨"v1"⟩], "{noformat}Caused by: X\n\tat a.b(c:1)\n{noformat}"⟩

/-- The same candidate issue but with an empty fix version list. -/
def issueC10 : Issue :=
  ⟨"PRJ-2", "Open", none, [], "{noformat}Caused by: X\n\tat a.b(c:1)\n{noformat}"⟩

/-- C9: on the duplicate path the reopen decision is true exactly when the
status is closed or resolved case-insensitively and the latest fix version
name differs from the currently active sprint name. -/
theorem reopen_iff_closed_and_other_sprint (current status fvName : String) :
    should_reopen_if_closed current (is_issue_closed status) fvName = true ↔
      ((status.toLower = "closed" ∨ status.toLower = "resolved") ∧ fvName ≠ current) := by
  simp only [should_reopen_if_closed, is_issue_closed, Bool.and_eq_true, Bool.or_eq_true,
    beq_iff_eq, Bool.not_eq_true', beq_eq_false_iff_ne]
  exact and_congr Iff.rfl (ne_comm)

/-- C3: add_attachment only swallows InternalError, which its body never
raises; a connection failure of the HTTP POST propagates out of
add_attachment and out of update_issue_with_attachments, failing the whole
request, while an InternalError outcome would be swallowed. -/
theorem attachment_error_propagates :
    add_attachment (Except.error PyError.connectionError) = Except.error PyError.connectionError
    ∧ update_issue_with_attachments [Except.error PyError.connectionError]
        = Except.error PyError.connectionError
    ∧ receive_exception_handles PyError.connectionError = false
    ∧ add_attachment (Except.error (PyError.internalError "boom")) = Except.ok () :=
  ⟨rfl, rfl, rfl, rfl⟩

/-- C2 counterexample: on a report whose cause-frame sequence is empty,
get_summary_from_message raises IndexError, which is not the InternalError
kind the request handler catches. -/
theorem summary_empty_raises_index_error_cex :
    get_summary_from_message [] = Except.error PyError.indexError
    ∧ receive_exception_handles PyError.indexError = false :=
  ⟨rfl, rfl⟩

/-- C2 (amended): get_summary_from_message returns the message of the last
cause frame, and on an empty sequence it raises IndexError, an uncaught
exception rather than the controlled internal-processing error. -/
theorem summary_last_message_or_index_error :
    (∀ (stackList : List CauseFrame) (f : CauseFrame), stackList.getLast? = some f →
        get_summary_from_message stackList = Except.ok f.message)
    ∧ get_summary_from_message [] = Except.error PyError.indexError
    ∧ receive_exception_handles PyError.indexError = false := by
  refine ⟨?_, rfl, rfl⟩
  intro stackList f h
  simp [get_summary_from_message, h]

/-- Witness for the amended C2 theorem at a one-frame report. -/
theorem summary_last_message_witness :
    List.getLast? [CauseFrame.mk "m" []] = some (CauseFrame.mk "m" [])
    ∧ get_summary_from_message [CauseFrame.mk "m" []] = Except.ok "m" :=
  ⟨rfl, summary_last_message_or_index_error.1 [CauseFrame.mk "m" []] (CauseFrame.mk "m" []) rfl⟩

/-- Filtering twice with the same predicate filters once. -/
theorem filter_self_idem {α : Type} (p : α → Bool) (l : List α) :
    (l.filter p).filter p = l.filter p := by
  rw [List.filter_filter]; simp

/-- C5: get_stacktrace_from_message renders the empty string for no frames,
renders frames in original order (one block per frame prepended in turn),
is unchanged by removing native-method stack lines first (hence the output
never contains a line of a native-method stack line), and on the one-frame
no-lines report it yields exactly the caused-by header line. -/
theorem stacktrace_render_spec :
    get_stacktrace_from_message [] = ""
    ∧ (∀ (f : CauseFrame) (frames : List CauseFrame),
        get_stacktrace_from_message (f :: frames)
          = render_frame f ++ get_stacktrace_from_message frames)
    ∧ (∀ frames : List CauseFrame,
        get_stacktrace_from_message (frames.map dropNativeLines)
          = get_stacktrace_from_message frames)
    ∧ get_stacktrace_from_message [⟨"NullPointerException at Foo", []⟩]
        = "Caused by: NullPointerException at Foo\n" := by
  refine ⟨rfl, fun f frames => rfl, ?_, rfl⟩
  intro frames
  induction frames with
  | nil => rfl
  | cons f rest ih =>
    show get_stacktrace_from_message (dropNativeLines f :: rest.map dropNativeLines) = _
    have hf : render_frame (dropNativeLines f) = render_frame f := by
      simp [render_frame, dropNativeLines, filter_self_idem]
    calc concatAll ((dropNativeLines f :: rest.map dropNativeLines).map render_frame)
        = render_frame (dropNativeLines f)
            ++ get_stacktrace_from_message (rest.map dropNativeLines) := rfl
      _ = render_frame f ++ get_stacktrace_from_message rest := by rw [hf, ih]
      _ = get_stacktrace_from_message (f :: rest) := rfl

/-- C6: calculate_issue_occurrence_count increments the count captured by
REGEX_COUNT and defaults to 1 for None, the empty string and non-matching
text; on "Count: 3..." the result starts with "Count: 4". -/
theorem occurrence_count_spec :
    (∀ (now s : String) (n : Nat), parseOccurrence s = some n →
        calculate_issue_occurrence_count (some s) now
          = "Count: " ++ toString (n + 1) ++ "\nLast: " ++ now)
    ∧ (∀ now : String, calculate_issue_occurrence_count none now = "Count: 1\nLast: " ++ now)
    ∧ (∀ now : String, calculate_issue_occurrence_count (some "") now = "Count: 1\nLast: " ++ now)
    ∧ (∀ now s : String, parseOccurrence s = none →
        calculate_issue_occurrence_count (some s) now = "Count: 1\nLast: " ++ now)
    ∧ (∀ now : String,
        calculate_issue_occurrence_count (some "Count: 3\nLast: ...") now
          = "Count: 4\nLast: " ++ now) := by
  refine ⟨?_, fun now => rfl, fun now => rfl, ?_, fun now => rfl⟩
  · intro now s n h
    have hlen : 0 < s.length := by
      rcases s with ⟨data⟩
      cases data with
      | nil => rw [show parseOccurrence ⟨[]⟩ = none from rfl] at h; cases h
      | cons c cs => simp [String.length]
    simp [calculate_issue_occurrence_count, hlen, h]
  · intro now s h
    by_cases hlen : 0 < s.length
    · simp only [calculate_issue_occurrence_count, hlen, h, if_pos, if_true]; rfl
    · simp only [calculate_issue_occurrence_count, hlen, if_false, if_neg]; rfl

/-- Witness for the occurrence-count theorem on the canonical example. -/
theorem occurrence_count_witness :
    parseOccurrence "Count: 3\nLast: x" = some 3
    ∧ calculate_issue_occurrence_count (some "Count: 3\nLast: x") "T"
        = "Count: " ++ toString (3 + 1) ++ "\nLast: " ++ "T" :=
  ⟨rfl, occurrence_count_spec.1 "T" "Count: 3\nLast: x" 3 rfl⟩

/-- When the last line matches REGEX_CAUSED_BY, the loop of
first_line_caused_by_from_printed_stacktrace ends at the last index. -/
theorem lastCausedByIdx_last (lines : List String) (n : Nat)
    (hlen : lines.length = n + 1) (hm : matchCausedBy (lines.getD n "") = true) :
    lastCausedByIdx lines = (n : Int) := by
  unfold lastCausedByIdx
  rw [hlen, List.range_succ, List.foldl_append]
  simp only [List.foldl_cons, List.foldl_nil]
  rw [hm]
  simp

/-- When both gate conditions hold, issue_match reduces to the
throw-location check of the trimmed pair. -/
theorem issue_match_pos (sim : String → String → Rat) (new_st : String) (issue : Issue)
    (h1 : 0 < (get_stacktrace_from_issue issue).length)
    (h2 : (7 : Rat) / 10 < gated_ratio sim
        (strTake new_st (get_stacktrace_from_issue issue).length)
        (get_stacktrace_from_issue issue)) :
    issue_match sim new_st issue
      = matches_exception_throw_location
          (strTake new_st (get_stacktrace_from_issue issue).length)
          (get_stacktrace_from_issue issue) := by
  simp only [issue_match]
  rw [if_pos ⟨h1, h2⟩]

/-- The concrete matcher run of the C1 example: stored trace identical to
the incoming one, ratio collaborator constantly 1. -/
theorem issue_match_eval_C1 : issue_match simOne newTraceC1 issueC1 = Except.ok true := by
  have hist : get_stacktrace_from_issue issueC1 = newTraceC1 := rfl
  have hq : (6 : Rat) / 10 < real_quick_ratioQ newTraceC1 newTraceC1 := by
    rw [real_quick_ratioQ, show newTraceC1.length = 26 from rfl]
    norm_num
  have hg : (7 : Rat) / 10 < gated_ratio simOne newTraceC1 newTraceC1 := by
    rw [gated_ratio, if_pos hq]
    norm_num [simOne]
  rw [issue_match_pos simOne newTraceC1 issueC1 (by rw [hist]; decide)
      (by rw [hist, show strTake newTraceC1 newTraceC1.length = newTraceC1 from rfl]; exact hg)]
  rfl

/-- C4: a stack trace whose last line matches the caused-by pattern (and
the empty string, whose line list is empty) drives
first_line_caused_by_from_printed_stacktrace to index one past the last
line, raising IndexError; in particular the canonical one-frame trace
"Caused by: NullPointerException at Foo\n" raises, as do
matches_exception_throw_location and determine_if_duplicate built on it. -/
theorem caused_by_out_of_range :
    (∀ (s : String) (n : Nat), (splitlines s).length = n + 1 →
        matchCausedBy ((splitlines s).getD n "") = true →
        first_line_caused_by_from_printed_stacktrace s = Except.error PyError.indexError)
    ∧ first_line_caused_by_from_printed_stacktrace "" = Except.error PyError.indexError
    ∧ first_line_caused_by_from_printed_stacktrace
        (get_stacktrace_from_message [⟨"NullPointerException at Foo", []⟩])
        = Except.error PyError.indexError
    ∧ (∀ st : String, matches_exception_throw_location
        (get_stacktrace_from_message [⟨"NullPointerException at Foo", []⟩]) st
        = Except.error PyError.indexError)
    ∧ determine_if_duplicate simOne [⟨"Foo", []⟩]
        [⟨"K", "Open", none, [⟨"v1"⟩], "{noformat}Caused by: Foo{noformat}"⟩]
        = Except.error PyError.indexError := by
  have hcore : ∀ (s : String) (n : Nat), (splitlines s).length = n + 1 →
      matchCausedBy ((splitlines s).getD n "") = true →
      first_line_caused_by_from_printed_stacktrace s = Except.error PyError.indexError := by
    intro s n hlen hm
    simp only [first_line_caused_by_from_printed_stacktrace]
    rw [lastCausedByIdx_last (splitlines s) n hlen hm]
    have ht : ((n : Int) + 1).toNat = n + 1 := by omega
    rw [ht]
    have hdrop : (splitlines s).drop (n + 1) = [] := by
      rw [← hlen]; exact List.drop_length _
    simp [pyIndex, hdrop]
  have hmatch : ∀ st : String, matches_exception_throw_location
      (get_stacktrace_from_message [⟨"NullPointerException at Foo", []⟩]) st
      = Except.error PyError.indexError := by
    intro st
    have h1 : first_line_caused_by_from_printed_stacktrace
        (get_stacktrace_from_message [⟨"NullPointerException at Foo", []⟩])
        = Except.error PyError.indexError := rfl
    simp only [matches_exception_throw_location]
    rw [h1]
  have hdet : determine_if_duplicate simOne [⟨"Foo", []⟩]
      [⟨"K", "Open", none, [⟨"v1"⟩], "{noformat}Caused by: Foo{noformat}"⟩]
      = Except.error PyError.indexError := by
    have hthrow : issue_match simOne "Caused by: Foo\n"
        ⟨"K", "Open", none, [⟨"v1"⟩], "{noformat}Caused by: Foo{noformat}"⟩
        = Except.error PyError.indexError := by
      have hq : (6 : Rat) / 10 < real_quick_ratioQ "Caused by: Foo" "Caused by: Foo" := by
        rw [real_quick_ratioQ, show ("Caused by: Foo").length = 14 from rfl]
        norm_num
      have hg : (7 : Rat) / 10 < gated_ratio simOne "Caused by: Foo" "Caused by: Foo" := by
        rw [gated_ratio, if_pos hq]
        norm_num [simOne]
      rw [issue_match_pos simOne "Caused by: Foo\n" _ (by decide) (by exact hg)]
      rfl
    simp only [determine_if_duplicate, duplicate_scan]
    rw [show get_summary_from_message [(⟨"Foo", []⟩ : CauseFrame)] = Except.ok "Foo" from rfl]
    rw [show get_stacktrace_from_message [(⟨"Foo", []⟩ : CauseFrame)] = "Caused by: Foo\n" from rfl]
    rw [hthrow]
  exact ⟨hcore, rfl, rfl, hmatch, hdet⟩

/-- Witness for the universal part of the caused-by IndexError theorem. -/
theorem caused_by_out_of_range_witness :
    (splitlines "A\nCaused by: B").length = 1 + 1
    ∧ matchCausedBy ((splitlines "A\nCaused by: B").getD 1 "") = true
    ∧ first_line_caused_by_from_printed_stacktrace "A\nCaused by: B"
        = Except.error PyError.indexError :=
  ⟨rfl, rfl, caused_by_out_of_range.1 "A\nCaused by: B" 1 rfl rfl⟩

/-- C1: a positive per-issue verdict requires a non-empty stored stack
trace, a gated match_ratio strictly above 0.7, and an agreeing (and
successful) throw-location check between the trimmed new trace and the
stored trace; each failing condition alone therefore rules a match out. -/
theorem duplicate_match_conditions (sim : String → String → Rat) (new_st : String)
    (issue : Issue) (h : issue_match sim new_st issue = Except.ok true) :
    get_stacktrace_from_issue issue ≠ ""
    ∧ (7 : Rat) / 10 < gated_ratio sim
        (strTake new_st (get_stacktrace_from_issue issue).length)
        (get_stacktrace_from_issue issue)
    ∧ matches_exception_throw_location
        (strTake new_st (get_stacktrace_from_issue issue).length)
        (get_stacktrace_from_issue issue) = Except.ok true := by
  simp only [issue_match] at h
  split at h
  case isTrue hc =>
    refine ⟨?_, hc.2, h⟩
    intro h0
    rw [h0] at hc
    simp at hc
  case isFalse hc =>
    exact absurd h (by simp)

/-- Witness: a concrete issue storing the identical trace passes the
matcher, and the three conditions of the C1 theorem hold there. -/
theorem duplicate_match_conditions_witness :
    issue_match simOne newTraceC1 issueC1 = Except.ok true
    ∧ (get_stacktrace_from_issue issueC1 ≠ ""
      ∧ (7 : Rat) / 10 < gated_ratio simOne
          (strTake newTraceC1 (get_stacktrace_from_issue issueC1).length)
          (get_stacktrace_from_issue issueC1)
      ∧ matches_exception_throw_location
          (strTake newTraceC1 (get_stacktrace_from_issue issueC1).length)
          (get_stacktrace_from_issue issueC1) = Except.ok true) :=
  ⟨issue_match_eval_C1,
    duplicate_match_conditions simOne newTraceC1 issueC1 issue_match_eval_C1⟩

/-- The concrete matcher run of the C10 example (same stored trace, but an
issue without fix versions): the matcher itself says yes. -/
theorem issue_match_eval_C10 : issue_match simOne newTraceC1 issueC10 = Except.ok true := by
  have hist : get_stacktrace_from_issue issueC10 = newTraceC1 := rfl
  have hq : (6 : Rat) / 10 < real_quick_ratioQ newTraceC1 newTraceC1 := by
    rw [real_quick_ratioQ, show newTraceC1.length = 26 from rfl]
    norm_num
  have hg : (7 : Rat) / 10 < gated_ratio simOne newTraceC1 newTraceC1 := by
    rw [gated_ratio, if_pos hq]
    norm_num [simOne]
  rw [issue_match_pos simOne newTraceC1 issueC10 (by rw [hist]; decide)
      (by rw [hist, show strTake newTraceC1 newTraceC1.length = newTraceC1 from rfl]; exact hg)]
  rfl

/-- C10: a positive verdict of the scan needs a non-empty fix version list
on the matched issue: an issue that passes the matcher but has no fix
versions makes the scan raise IndexError (inside get_latest_fix_version)
instead of returning a verdict, and every returned positive verdict comes
from an issue whose fix version list is non-empty. -/
theorem match_requires_fix_versions :
    (∀ (sim : String → String → Rat) (new_st : String) (issue : Issue) (rest : List Issue),
        issue_match sim new_st issue = Except.ok true → issue.fixVersions = [] →
        duplicate_scan sim new_st (issue :: rest) = Except.error PyError.indexError)
    ∧ (∀ (sim : String → String → Rat) (new_st : String) (issues : List Issue)
        (k st : String) (env : Option String) (fv : String),
        duplicate_scan sim new_st issues = Except.ok (Verdict.dup k st env fv) →
        ∃ issue ∈ issues, issue.fixVersions ≠ []) := by
  constructor
  · intro sim new_st issue rest h hfv
    simp only [duplicate_scan]
    rw [h, hfv]
    rfl
  · intro sim new_st issues
    induction issues with
    | nil =>
      intro k st env fv h
      simp [duplicate_scan] at h
    | cons issue rest ih =>
      intro k st env fv h
      simp only [duplicate_scan] at h
      cases him : issue_match sim new_st issue with
      | error e => rw [him] at h; simp at h
      | ok b =>
        rw [him] at h
        cases b with
        | false =>
          simp only [] at h
          obtain ⟨i, hi, hfv⟩ := ih k st env fv h
          exact ⟨i, List.mem_cons_of_mem _ hi, hfv⟩
        | true =>
          cases hg : get_latest_fix_version issue.fixVersions with
          | error e => rw [hg] at h; simp at h
          | ok fv2 =>
            refine ⟨issue, List.mem_cons_self _ _, ?_⟩
            intro hnil
            rw [hnil] at hg
            simp [get_latest_fix_version, max_fix_version] at hg

/-- Witness: the C10 example issue matches, has no fix versions, and the
scan over it raises IndexError. -/
theorem match_requires_fix_versions_witness :
    issue_match simOne newTraceC1 issueC10 = Except.ok true
    ∧ issueC10.fixVersions = []
    ∧ duplicate_scan simOne newTraceC1 [issueC10] = Except.error PyError.indexError :=
  ⟨issue_match_eval_C10, rfl,
    match_requires_fix_versions.1 simOne newTraceC1 issueC10 [] issue_match_eval_C10 rfl⟩

/-- Unfolding lemma for okPair via headSpace. -/
theorem okPair_eq (c : Char) (l : List Char) :
    okPair c l = (!(isPySpace c) || (c == ' ' && !(headSpace l))) := by
  cases l <;> rfl

/-- Unfolding lemma for noDoubleSpace on cons. -/
theorem noDouble_cons (c : Char) (l : List Char) :
    noDoubleSpace (c :: l) = (okPair c l && noDoubleSpace l) := rfl

/-- The tail of a noDoubleSpace list is noDoubleSpace. -/
theorem noDouble_tail (c : Char) (l : List Char) (h : noDoubleSpace (c :: l) = true) :
    noDoubleSpace l = true := by
  rw [noDouble_cons, Bool.and_eq_true] at h
  exact h.2

/-- The head pair of a noDoubleSpace list is in order. -/
theorem okPair_of_noDouble (c : Char) (l : List Char) (h : noDoubleSpace (c :: l) = true) :
    okPair c l = true := by
  rw [noDouble_cons, Bool.and_eq_true] at h
  exact h.1

/-- Unfolding lemma for collapse_ws on cons. -/
theorem collapse_ws_cons (b : Bool) (c : Char) (cs : List Char) :
    collapse_ws b (c :: cs)
      = if isPySpace c then
          (if b then collapse_ws true cs else ' ' :: collapse_ws true cs)
        else c :: collapse_ws false cs := rfl

/-- After a space was just emitted, the collapsed rest starts non-space. -/
theorem headSpace_collapse_true : ∀ l : List Char, headSpace (collapse_ws true l) = false
  | [] => rfl
  | c :: cs => by
    rw [collapse_ws_cons]
    by_cases hc : isPySpace c = true
    · simp only [hc, if_true, if_pos]
      exact headSpace_collapse_true cs
    · have hc' : isPySpace c = false := by simpa using hc
      simp only [hc', Bool.false_eq_true, if_false]
      simpa [headSpace] using hc'

/-- The collapsed form has single spaces only. -/
theorem noDouble_collapse : ∀ (l : List Char) (b : Bool), noDoubleSpace (collapse_ws b l) = true
  | [], _ => rfl
  | c :: cs, b => by
    rw [collapse_ws_cons]
    by_cases hc : isPySpace c = true
    · cases b with
      | true => simp only [hc, if_true, if_pos]; exact noDouble_collapse cs true
      | false =>
        simp only [hc, if_true, if_pos, Bool.false_eq_true, if_false]
        rw [noDouble_cons, Bool.and_eq_true]
        refine ⟨?_, noDouble_collapse cs true⟩
        rw [okPair_eq, headSpace_collapse_true cs]
        simp
    · have hc' : isPySpace c = false := by simpa using hc
      simp only [hc', Bool.false_eq_true, if_false]
      rw [noDouble_cons, Bool.and_eq_true]
      refine ⟨?_, noDouble_collapse cs false⟩
      rw [okPair_eq, hc']
      simp

/-- okPair only constrains the head of its second argument, so it survives
truncation. -/
theorem okPair_take (c : Char) (l : List Char) (n : Nat) (h : okPair c l = true) :
    okPair c (l.take n) = true := by
  rw [okPair_eq] at h ⊢
  cases l with
  | nil => simpa using h
  | cons d ds =>
    cases n with
    | zero => simp only [List.take_zero, headSpace]; revert h; cases isPySpace c <;> simp_all
    | succ m => simpa [headSpace] using h

/-- noDoubleSpace survives truncation. -/
theorem noDouble_take : ∀ (l : List Char) (n : Nat), noDoubleSpace l = true →
    noDoubleSpace (l.take n) = true
  | [], n, _ => by simp [noDoubleSpace]
  | c :: cs, 0, _ => rfl
  | c :: cs, n + 1, h => by
    rw [List.take_succ_cons, noDouble_cons, Bool.and_eq_true]
    exact ⟨okPair_take c cs n (okPair_of_noDouble c cs h),
      noDouble_take cs n (noDouble_tail c cs h)⟩

/-- noDoubleSpace survives dropWhile. -/
theorem noDouble_dropWhile (p : Char → Bool) :
    ∀ l : List Char, noDoubleSpace l = true → noDoubleSpace (l.dropWhile p) = true
  | [], _ => rfl
  | c :: cs, h => by
    rw [List.dropWhile_cons]
    by_cases hc : p c = true
    · simp only [hc, if_true, if_pos]
      exact noDouble_dropWhile p cs (noDouble_tail c cs h)
    · simp only [hc]
      simpa using h

/-- dropTrailingWS keeps the head when the result is non-empty. -/
theorem dropTrailing_shape : ∀ (l : List Char) (x : Char) (xs : List Char),
    dropTrailingWS l = x :: xs → ∃ ys, l = x :: ys
  | [], x, xs, h => by cases h
  | c :: cs, x, xs, h => by
    rw [dropTrailingWS] at h
    cases hr : dropTrailingWS cs with
    | nil =>
      rw [hr] at h
      by_cases hc : isPySpace c = true
      · rw [if_pos hc] at h; cases h
      · rw [if_neg hc] at h
        cases h
        exact ⟨cs, rfl⟩
    | cons y ys =>
      rw [hr] at h
      cases h
      exact ⟨cs, rfl⟩

/-- noDoubleSpace survives removal of the trailing whitespace run. -/
theorem noDouble_dropTrailing : ∀ l : List Char, noDoubleSpace l = true →
    noDoubleSpace (dropTrailingWS l) = true
  | [], _ => rfl
  | c :: cs, h => by
    rw [dropTrailingWS]
    cases hr : dropTrailingWS cs with
    | nil =>
      by_cases hc : isPySpace c = true
      · rw [if_pos hc]; rfl
      · rw [if_neg hc]
        rw [noDouble_cons, Bool.and_eq_true]
        constructor
        · rw [okPair_eq]; simp [show isPySpace c = false by simpa using hc]
        · rfl
    | cons y ys =>
      rw [noDouble_cons, Bool.and_eq_true]
      constructor
      · obtain ⟨zs, hzs⟩ := dropTrailing_shape cs y ys hr
        have hop := okPair_of_noDouble c cs h
        rw [okPair_eq] at hop ⊢
        rw [hzs] at hop
        simpa [headSpace] using hop
      · rw [← hr]
        exact noDouble_dropTrailing cs (noDouble_tail c cs h)

/-- A list with single plain spaces only and no leading whitespace is a
fixpoint of the whitespace collapse, whatever the machine state. -/
theorem collapse_fix : ∀ l : List Char, noDoubleSpace l = true → headSpace l = false →
    ∀ b : Bool, collapse_ws b l = l
  | [], _, _, _ => rfl
  | c :: cs, hnd, hh, b => by
    have hc : isPySpace c = false := by simpa [headSpace] using hh
    have hnd2 : noDoubleSpace cs = true := noDouble_tail c cs hnd
    have hrest : collapse_ws false cs = cs := by
      cases cs with
      | nil => rfl
      | cons d ds =>
        by_cases hd : isPySpace d = true
        · have hop : okPair d ds = true := okPair_of_noDouble d ds hnd2
          rw [okPair_eq, hd] at hop
          simp only [Bool.not_true, Bool.false_or, Bool.and_eq_true, beq_iff_eq,
            Bool.not_eq_true'] at hop
          obtain ⟨hd', hds⟩ := hop
          rw [collapse_ws_cons, if_pos hd]
          rw [collapse_fix ds (noDouble_tail d ds hnd2) hds true, hd']
          simp
        · have hd' : headSpace (d :: ds) = false := by simpa [headSpace] using hd
          exact collapse_fix (d :: ds) hnd2 hd' false
    rw [collapse_ws_cons, if_neg (by simp [hc]), hrest]

/-- A list without trailing whitespace is a fixpoint of dropTrailingWS. -/
theorem dropTrailing_fix : ∀ l : List Char, lastSpace l = false → dropTrailingWS l = l
  | [], _ => rfl
  | c :: cs, h => by
    cases cs with
    | nil =>
      have hc : isPySpace c = false := by simpa [lastSpace] using h
      simp [dropTrailingWS, hc]
    | cons d ds =>
      have h2 : lastSpace (d :: ds) = false := by simpa [lastSpace] using h
      rw [dropTrailingWS, dropTrailing_fix (d :: ds) h2]

/-- A list without leading whitespace is a fixpoint of the strip of
leading whitespace. -/
theorem dropWhile_fix (l : List Char) (h : headSpace l = false) :
    l.dropWhile isPySpace = l := by
  cases l with
  | nil => rfl
  | cons c cs =>
    have hc : isPySpace c = false := by simpa [headSpace] using h
    simp [List.dropWhile_cons, hc]

/-- Stripping leading whitespace leaves no leading whitespace. -/
theorem headSpace_dropWhile : ∀ l : List Char, headSpace (l.dropWhile isPySpace) = false
  | [] => rfl
  | c :: cs => by
    rw [List.dropWhile_cons]
    by_cases hc : isPySpace c = true
    · simp only [hc, if_true, if_pos]
      exact headSpace_dropWhile cs
    · simp only [hc]
      simpa [headSpace] using hc

/-- dropTrailingWS does not create leading whitespace. -/
theorem headSpace_dropTrailing (l : List Char) (h : headSpace l = false) :
    headSpace (dropTrailingWS l) = false := by
  cases hr : dropTrailingWS l with
  | nil => rfl
  | cons x xs =>
    obtain ⟨ys, hys⟩ := dropTrailing_shape l x xs hr
    rw [hys] at h
    simpa [headSpace] using h

/-- Characters of the collapsed list: a space or an original character. -/
theorem mem_collapse : ∀ (l : List Char) (b : Bool) (c : Char),
    c ∈ collapse_ws b l → c = ' ' ∨ c ∈ l
  | [], b, c, h => by cases h
  | d :: ds, b, c, h => by
    rw [collapse_ws_cons] at h
    by_cases hd : isPySpace d = true
    · rw [if_pos hd] at h
      cases b with
      | true =>
        rcases mem_collapse ds true c h with h1 | h1
        · exact Or.inl h1
        · exact Or.inr (List.mem_cons_of_mem d h1)
      | false =>
        simp only [Bool.false_eq_true, if_false] at h
        rcases List.mem_cons.mp h with h1 | h1
        · exact Or.inl h1
        · rcases mem_collapse ds true c h1 with h2 | h2
          · exact Or.inl h2
          · exact Or.inr (List.mem_cons_of_mem d h2)
    · rw [if_neg hd] at h
      rcases List.mem_cons.mp h with h1 | h1
      · exact Or.inr (h1 ▸ List.mem_cons_self d ds)
      · rcases mem_collapse ds false c h1 with h2 | h2
        · exact Or.inl h2
        · exact Or.inr (List.mem_cons_of_mem d h2)

/-- Characters survive dropTrailingWS membership-wise. -/
theorem mem_dropTrailing : ∀ (l : List Char) (c : Char), c ∈ dropTrailingWS l → c ∈ l
  | [], c, h => by cases h
  | d :: ds, c, h => by
    rw [dropTrailingWS] at h
    cases hr : dropTrailingWS ds with
    | nil =>
      rw [hr] at h
      by_cases hd : isPySpace d = true
      · rw [if_pos hd] at h; cases h
      · rw [if_neg hd] at h
        rcases List.mem_cons.mp h with h1 | h1
        · exact h1 ▸ List.mem_cons_self d ds
        · cases h1
    | cons y ys =>
      rw [hr] at h
      rcases List.mem_cons.mp h with h1 | h1
      · exact h1 ▸ List.mem_cons_self d ds
      · exact List.mem_cons_of_mem d (mem_dropTrailing ds c (hr ▸ h1))

/-- Characters of trim_whitespace output: a space or an input character. -/
theorem mem_trim_whitespace (s : String) (c : Char) (h : c ∈ (trim_whitespace s).data) :
    c = ' ' ∨ c ∈ s.data := by
  have h1 : c ∈ pyStrip (collapse_ws false s.data) := h
  have h2 : c ∈ (collapse_ws false s.data).dropWhile isPySpace :=
    mem_dropTrailing _ c h1
  have h3 : c ∈ collapse_ws false s.data :=
    (List.dropWhile_sublist isPySpace).subset h2
  exact mem_collapse s.data false c h3

/-- trim_whitespace output has single plain spaces only. -/
theorem noDouble_trim_whitespace (s : String) :
    noDoubleSpace (trim_whitespace s).data = true :=
  noDouble_dropTrailing _
    (noDouble_dropWhile isPySpace _ (noDouble_collapse s.data false))

/-- trim_whitespace output has no leading whitespace. -/
theorem headSpace_trim_whitespace (s : String) :
    headSpace (trim_whitespace s).data = false :=
  headSpace_dropTrailing _ (headSpace_dropWhile _)

/-- trim_whitespace fixes strings that are already collapsed and stripped. -/
theorem trim_whitespace_fix (s : String) (hnd : noDoubleSpace s.data = true)
    (hh : headSpace s.data = false) (hl : lastSpace s.data = false) :
    trim_whitespace s = s := by
  have h1 : collapse_ws false s.data = s.data := collapse_fix s.data hnd hh false
  have : trim_whitespace s = ⟨s.data⟩ := by
    simp only [trim_whitespace, pyStrip, h1, dropWhile_fix s.data hh, dropTrailing_fix s.data hl]
  rw [this]

/-- Truncation cannot create leading whitespace. -/
theorem headSpace_take (l : List Char) (n : Nat) (h : headSpace l = false) :
    headSpace (l.take n) = false := by
  cases l with
  | nil => simp [headSpace]
  | cons c cs =>
    cases n with
    | zero => rfl
    | succ m => simpa [headSpace] using h

/-- pySliceStop returns a truncation of the input characters. -/
theorem pySliceStop_data (s : String) (m : Int) :
    ∃ n, (pySliceStop s m).data = s.data.take n := by
  unfold pySliceStop
  split
  · exact ⟨m.toNat, rfl⟩
  · exact ⟨((s.length : Int) + m).toNat, rfl⟩

/-- trim_length returns a truncation of the input characters. -/
theorem trim_length_data (s : String) (m : Int) :
    ∃ n, (trim_length s m).data = s.data.take n := by
  unfold trim_length
  split
  · exact pySliceStop_data s m
  · exact ⟨s.data.length, (List.take_length s.data).symm⟩

/-- second_colon_trim returns a truncation of the input characters. -/
theorem second_colon_data (f : Bool) (s : String) :
    ∃ n, (second_colon_trim f s).data = s.data.take n := by
  unfold second_colon_trim
  split
  · exact pySliceStop_data s _
  · exact ⟨s.data.length, (List.take_length s.data).symm⟩

/-- With a non-negative budget, trim_length caps the length by it. -/
theorem trim_length_le (s : String) (m : Int) (hm : 0 ≤ m) :
    ((trim_length s m).length : Int) ≤ m := by
  unfold trim_length
  split
  case isTrue h =>
    unfold pySliceStop
    rw [if_pos hm]
    have hlen : (⟨s.data.take m.toNat⟩ : String).length = min m.toNat s.data.length := by
      rw [show (⟨s.data.take m.toNat⟩ : String).length = (s.data.take m.toNat).length from rfl,
        List.length_take]
    rw [hlen]
    have := min_le_left m.toNat s.data.length
    omega
  case isFalse h =>
    omega

/-- The index found by pyFindAux carries no earlier occurrence and points
at an occurrence. -/
theorem pyFindAux_found (c : Char) : ∀ (l : List Char) (i : Nat), pyFindAux c l = some i →
    (l.take i).count c = 0 ∧ ∃ rest, l.drop i = c :: rest
  | [], i, h => by cases h
  | x :: xs, i, h => by
    rw [pyFindAux] at h
    by_cases hx : (x == c) = true
    · rw [if_pos hx] at h
      cases h
      exact ⟨rfl, xs, by rw [List.drop_zero, eq_of_beq hx]⟩
    · rw [if_neg hx] at h
      rcases Option.map_eq_some'.mp h with ⟨j, hj, hij⟩
      obtain ⟨h1, rest, h2⟩ := pyFindAux_found c xs j hj
      subst hij
      refine ⟨?_, rest, by simpa using h2⟩
      rw [List.take_succ_cons, List.count_cons]
      simp [h1, hx]

/-- No index found means no occurrence. -/
theorem pyFindAux_none (c : Char) : ∀ l : List Char, pyFindAux c l = none → l.count c = 0
  | [], _ => rfl
  | x :: xs, h => by
    rw [pyFindAux] at h
    by_cases hx : (x == c) = true
    · rw [if_pos hx] at h; cases h
    · rw [if_neg hx] at h
      rw [List.count_cons]
      simp only [Option.map_eq_none'] at h
      simp [pyFindAux_none c xs h, hx]

/-- With at least two colons, the second-colon cut leaves exactly one. -/
theorem second_colon_count (s : String) (h2 : 2 ≤ s.data.count ':') :
    (second_colon_trim true s).data.count ':' = 1 := by
  cases hf1 : pyFindAux ':' s.data with
  | none => exact absurd (pyFindAux_none ':' s.data hf1) (by omega)
  | some j1 =>
    obtain ⟨hc1, rest, hdrop1⟩ := pyFindAux_found ':' s.data j1 hf1
    have hsplit : s.data.count ':' = 1 + rest.count ':' := by
      conv_lhs => rw [← List.take_append_drop j1 s.data]
      rw [List.count_append, hdrop1, hc1, List.count_cons]
      simp
      omega
    have hdrop2 : s.data.drop (j1 + 1) = rest := by
      rw [← List.drop_drop, hdrop1]
      rfl
    cases hf2 : pyFindAux ':' rest with
    | none => exact absurd (pyFindAux_none ':' rest hf2) (by omega)
    | some j2 =>
      obtain ⟨hc2, rest2, hdrop3⟩ := pyFindAux_found ':' rest j2 hf2
      have hfind1 : pyFind s ':' 0 = (j1 : Int) := by
        unfold pyFind
        rw [List.drop_zero, hf1]
        simp
      have htn : (pyFind s ':' 0 + 1).toNat = j1 + 1 := by
        rw [hfind1]; omega
      have hfind2 : pyFind s ':' (j1 + 1) = ((j2 + (j1 + 1) : Nat) : Int) := by
        unfold pyFind
        rw [hdrop2, hf2]
      unfold second_colon_trim
      rw [if_pos ⟨rfl, h2⟩, htn, hfind2]
      unfold pySliceStop
      rw [if_pos (by omega)]
      have htn2 : ((j2 + (j1 + 1) : Nat) : Int).toNat = (j1 + 1) + j2 := by omega
      rw [htn2]
      have : s.data.take ((j1 + 1) + j2) = s.data.take (j1 + 1) ++ rest.take j2 := by
        rw [List.take_add, hdrop2]
      rw [this, List.count_append]
      have htake1 : s.data.take (j1 + 1) = s.data.take j1 ++ [':'] := by
        rw [List.take_add, hdrop1]
        rfl
      rw [htake1, List.count_append, hc1, hc2]
      simp

/-- For a query the sanitized text never keeps two colons. -/
theorem second_colon_le_one (s : String) :
    (second_colon_trim true s).data.count ':' ≤ 1 := by
  by_cases h2 : 2 ≤ s.data.count ':'
  · rw [second_colon_count s h2]
  · have : second_colon_trim true s = s := by
      unfold second_colon_trim
      rw [if_neg (by simp [h2])]
    rw [this]
    omega

/-- The sanitized text is a truncation of the collapsed filtered text. -/
theorem sanitize_data_take (title raw : String) (f : Bool) :
    ∃ n, (sanitize_jql_summary title raw f).data
      = (trim_whitespace (filter_out_blacklisted_characters raw)).data.take n := by
  obtain ⟨n1, hn1⟩ := trim_length_data (trim_whitespace (filter_out_blacklisted_characters raw))
    ((MAX_SUMMARY_LENGTH : Int) - (title.length : Int) - 2)
  obtain ⟨n2, hn2⟩ := second_colon_data f
    (trim_length (trim_whitespace (filter_out_blacklisted_characters raw))
      ((MAX_SUMMARY_LENGTH : Int) - (title.length : Int) - 2))
  refine ⟨min n2 n1, ?_⟩
  show (second_colon_trim f (trim_length (trim_whitespace
      (filter_out_blacklisted_characters raw))
      ((MAX_SUMMARY_LENGTH : Int) - (title.length : Int) - 2))).data = _
  rw [hn2, hn1, List.take_take]

/-- No blacklisted character survives sanitize_jql_summary. -/
theorem sanitize_no_blacklist (title raw : String) (f : Bool) (c : Char)
    (hc : c ∈ (sanitize_jql_summary title raw f).data) :
    BLACKLISTED_CHARACTERS.contains c = false := by
  obtain ⟨n, hn⟩ := sanitize_data_take title raw f
  rw [hn] at hc
  have hcw : c ∈ (trim_whitespace (filter_out_blacklisted_characters raw)).data :=
    List.take_subset _ _ hc
  rcases mem_trim_whitespace _ c hcw with h1 | h1
  · subst h1; decide
  · have := List.of_mem_filter h1
    simpa using this

/-- With a non-negative budget the sanitized text respects the length cap. -/
theorem sanitize_length_le (title raw : String) (f : Bool)
    (hm : (0 : Int) ≤ (MAX_SUMMARY_LENGTH : Int) - (title.length : Int) - 2) :
    ((sanitize_jql_summary title raw f).length : Int)
      ≤ (MAX_SUMMARY_LENGTH : Int) - (title.length : Int) - 2 := by
  obtain ⟨n2, hn2⟩ := second_colon_data f
    (trim_length (trim_whitespace (filter_out_blacklisted_characters raw))
      ((MAX_SUMMARY_LENGTH : Int) - (title.length : Int) - 2))
  have h1 := trim_length_le (trim_whitespace (filter_out_blacklisted_characters raw))
    ((MAX_SUMMARY_LENGTH : Int) - (title.length : Int) - 2) hm
  have e2 : (sanitize_jql_summary title raw f).length
      ≤ (trim_length (trim_whitespace (filter_out_blacklisted_characters raw))
          ((MAX_SUMMARY_LENGTH : Int) - (title.length : Int) - 2)).length := by
    show (sanitize_jql_summary title raw f).data.length ≤ _
    have : (sanitize_jql_summary title raw f).data
        = (trim_length (trim_whitespace (filter_out_blacklisted_characters raw))
            ((MAX_SUMMARY_LENGTH : Int) - (title.length : Int) - 2)).data.take n2 := hn2
    rw [this, List.length_take]
    exact min_le_right _ _
  omega

/-- Fixpoint of one full sanitize pass: already filtered, collapsed,
stripped text inside the length cap with fewer than two colons (when
querying) passes unchanged. -/
theorem sanitize_fix (title s : String) (f : Bool)
    (hnd : noDoubleSpace s.data = true) (hh : headSpace s.data = false)
    (hl : lastSpace s.data = false)
    (hch : ∀ c ∈ s.data, BLACKLISTED_CHARACTERS.contains c = false)
    (hlen : (s.length : Int) ≤ (MAX_SUMMARY_LENGTH : Int) - (title.length : Int) - 2)
    (hcol : f = true → s.data.count ':' < 2) :
    sanitize_jql_summary title s f = s := by
  have hfil : filter_out_blacklisted_characters s = s := by
    unfold filter_out_blacklisted_characters
    have hkeep : s.data.filter (fun c => !(BLACKLISTED_CHARACTERS.contains c)) = s.data :=
      List.filter_eq_self.mpr (fun a ha => by
        rw [Bool.not_eq_true']
        exact hch a ha)
    rw [hkeep]
  have htrim : trim_whitespace s = s := trim_whitespace_fix s hnd hh hl
  have htl : trim_length s ((MAX_SUMMARY_LENGTH : Int) - (title.length : Int) - 2) = s := by
    unfold trim_length
    rw [if_neg (by omega)]
  unfold sanitize_jql_summary
  rw [hfil, htrim, htl]
  cases f with
  | false =>
    unfold second_colon_trim
    rw [if_neg (by simp)]
  | true =>
    unfold second_colon_trim
    rw [if_neg (by intro hcon; have := hcol rfl; omega)]

/-- C8 counterexample: for the query flavour, the second-colon cut leaves a
trailing space that a second pass strips, so sanitize is not idempotent. -/
theorem sanitize_not_idempotent_cex :
    sanitize_jql_summary "" (sanitize_jql_summary "" "a : : b" true) true
      ≠ sanitize_jql_summary "" "a : : b" true := by decide

/-- C8 (amended): with a sane configuration (title short enough for a
non-negative budget), sanitize is idempotent on every input whose sanitized
form does not end in whitespace; only the truncation steps can leave such a
trailing space, and then the second pass strips it. -/
theorem sanitize_idempotent_amended (title x : String) (f : Bool)
    (htitle : title.length ≤ 253)
    (hts : lastSpace (sanitize_jql_summary title x f).data = false) :
    sanitize_jql_summary title (sanitize_jql_summary title x f) f
      = sanitize_jql_summary title x f := by
  obtain ⟨n, hn⟩ := sanitize_data_take title x f
  have hnd : noDoubleSpace (sanitize_jql_summary title x f).data = true := by
    rw [hn]; exact noDouble_take _ _ (noDouble_trim_whitespace _)
  have hh : headSpace (sanitize_jql_summary title x f).data = false := by
    rw [hn]; exact headSpace_take _ _ (headSpace_trim_whitespace _)
  have hch : ∀ c ∈ (sanitize_jql_summary title x f).data,
      BLACKLISTED_CHARACTERS.contains c = false :=
    fun c hc => sanitize_no_blacklist title x f c hc
  have hm : (0 : Int) ≤ (MAX_SUMMARY_LENGTH : Int) - (title.length : Int) - 2 := by
    simp only [MAX_SUMMARY_LENGTH]
    omega
  have hlen := sanitize_length_le title x f hm
  have hcol : f = true → (sanitize_jql_summary title x f).data.count ':' < 2 := by
    intro hf
    subst hf
    have h1 : (sanitize_jql_summary title x true).data.count ':' ≤ 1 :=
      second_colon_le_one _
    omega
  exact sanitize_fix title (sanitize_jql_summary title x f) f hnd hh hts hch hlen hcol

/-- Witness for the amended idempotence theorem on a short plain input. -/
theorem sanitize_idempotent_witness :
    ("T" : String).length ≤ 253
    ∧ lastSpace (sanitize_jql_summary "T" "a  b" false).data = false
    ∧ sanitize_jql_summary "T" (sanitize_jql_summary "T" "a  b" false) false
        = sanitize_jql_summary "T" "a  b" false :=
  ⟨by decide, by decide, sanitize_idempotent_amended "T" "a  b" false (by decide) (by decide)⟩

/-- C7: sanitize_jql_summary removes every blacklisted character, caps the
length to MAX_SUMMARY_LENGTH - len(title) - 2 (whenever that budget is
non-negative), keeps at most one colon in query mode thanks to the final
second-colon cut, and maps the "Error: can?t parse [x]" scenario (with an
apostrophe for the question mark) to "Error: cant parse x". -/
theorem sanitize_spec :
    (∀ (title raw : String) (f : Bool), ∀ c ∈ (sanitize_jql_summary title raw f).data,
        BLACKLISTED_CHARACTERS.contains c = false)
    ∧ (∀ (title raw : String) (f : Bool),
        (0 : Int) ≤ (MAX_SUMMARY_LENGTH : Int) - (title.length : Int) - 2 →
        ((sanitize_jql_summary title raw f).length : Int)
          ≤ (MAX_SUMMARY_LENGTH : Int) - (title.length : Int) - 2)
    ∧ (∀ title raw : String, (sanitize_jql_summary title raw true).data.count ':' ≤ 1)
    ∧ (∀ title : String, title.length ≤ 234 →
        sanitize_jql_summary title "Error: can\x27t parse [x]" false
          = "Error: cant parse x") := by
  refine ⟨fun title raw f c hc => sanitize_no_blacklist title raw f c hc,
    fun title raw f hm => sanitize_length_le title raw f hm,
    fun title raw => second_colon_le_one _, ?_⟩
  intro title ht
  show second_colon_trim false
      (trim_length (trim_whitespace (filter_out_blacklisted_characters "Error: can\x27t parse [x]"))
        ((MAX_SUMMARY_LENGTH : Int) - (title.length : Int) - 2)) = "Error: cant parse x"
  rw [show trim_whitespace (filter_out_blacklisted_characters "Error: can\x27t parse [x]")
      = "Error: cant parse x" from rfl]
  have htl : trim_length "Error: cant parse x"
      ((MAX_SUMMARY_LENGTH : Int) - (title.length : Int) - 2) = "Error: cant parse x" := by
    unfold trim_length
    rw [if_neg ?_]
    rw [show ("Error: cant parse x" : String).length = 19 from rfl]
    simp only [MAX_SUMMARY_LENGTH]
    omega
  rw [htl]
  unfold second_colon_trim
  rw [if_neg (by simp)]

/-- Witness for the sanitize theorem: the length budget is non-negative for
an example title, and the scenario rewrites as claimed. -/
theorem sanitize_spec_witness :
    (0 : Int) ≤ (MAX_SUMMARY_LENGTH : Int) - (("T" : String).length : Int) - 2
    ∧ ((sanitize_jql_summary "T" "a  [b]" false).length : Int)
        ≤ (MAX_SUMMARY_LENGTH : Int) - (("T" : String).length : Int) - 2
    ∧ ("T" : String).length ≤ 234
    ∧ sanitize_jql_summary "T" "Error: can\x27t parse [x]" false = "Error: cant parse x" :=
  ⟨by decide, sanitize_spec.2.1 "T" "a  [b]" false (by decide), by decide,
    sanitize_spec.2.2.2 "T" (by decide)⟩
